import Mathlib

/-!
Verification development for the `fetch_tivo_recordings` module.

The definitions below are a shallow embedding of `fetch_tivo_recordings.py`:
pure Lean functions mirror the Python functions, the two network services
(the TiVo device and The TVDB) are modelled as oracles supplying the data
the code would read from the wire, `while True:` loops become fuel-indexed
recursion, and Python truthiness of the values involved (None, empty
string, zero) is modelled explicitly.
-/

namespace TivoModule

/-- Python truthiness of an optional string: `None` and the empty string are
falsy (used for the `episode` module parameter and dict values). -/
def strOptFalsy : Option String → Bool
  | none => true
  | some s => s == ""

/-- Python truthiness of an optional number: `None` and `0` are falsy (used
for `season_num` / `episode_num` as in `if season_num and episode_num:`). -/
def natOptTruthy : Option Nat → Bool
  | none => false
  | some n => !(n == 0)

/-- Rendering of python format `{:0=2d}` for a non-negative integer:
zero-padded to at least two digits. -/
def pad2 (n : Nat) : String :=
  if n < 10 then "0" ++ toString n else toString n

/-- Index of the last dot of a character list, if any. -/
def lastDotIdx (cs : List Char) : Option Nat :=
  match cs.reverse.findIdx? (fun c => c == '.') with
  | none => none
  | some j => some (cs.length - 1 - j)

/-- Stem of `os.path.splitext` on a bare file name (no directory parts):
everything before the last dot, except that dots leading the name never
start an extension (`.bashrc` has no extension). -/
def splitextStem (s : String) : String :=
  let cs := s.toList
  let lead := (cs.takeWhile (fun c => c == '.')).length
  match lastDotIdx cs with
  | none => s
  | some i => if lead ≤ i then String.mk (cs.take i) else s

/- ------------------------------------------------------------------ -/
/- The TVDB metadata lookup: `get_season_episode_num`.                 -/
/- ------------------------------------------------------------------ -/

/-- Python `str.lower()` (modelled on the ASCII letters). -/
def lowerStr (s : String) : String :=
  String.mk (s.data.map Char.toLower)

/-- Python `str.strip()`: drop leading and trailing whitespace. -/
def stripStr (s : String) : String :=
  String.mk (((s.data.dropWhile Char.isWhitespace).reverse.dropWhile
    Char.isWhitespace).reverse)

/-- Source line 282: the case-insensitive episode-name comparison
`episode['episodeName'].strip().lower() == episode_name.lower()`. -/
def tvdbEpisodeMatches (catalogName requested : String) : Bool :=
  lowerStr (stripStr catalogName) == lowerStr requested

/-- One episode record of a TVDB episodes page. -/
structure TvdbEpisode where
  episodeName : String
  airedSeason : Nat
  airedEpisodeNumber : Nat
  deriving Repr, DecidableEq

/-- One page of `GET /series/{id}/episodes`: the `data` array and the
`links.next` value (a page number or JSON null). -/
structure TvdbPage where
  episodes : List TvdbEpisode
  next : Option Nat
  deriving Repr, DecidableEq

/-- Oracle for the three TVDB endpoints. A `none` response means the
corresponding `requests_wrapper` call failed (transport error or non-2xx
status): with `fail_on_error=True` the wrapper fails the module before
returning, with `fail_on_error=False` it returns Python `None`. -/
structure TvdbWorld where
  login : Option String
  seriesSearch : Option (List Nat)
  episodesPage : Nat → Option TvdbPage

/-- Observable outcome of `get_season_episode_num`:
a returned pair, a `module.fail_json` run termination, an uncaught Python
exception, or fuel exhaustion standing for a non-terminating page loop. -/
inductive TvdbOutcome where
  | ok (seasonNum episodeNum : Option Nat)
  | failJson (msg : String)
  | raised
  | diverged
  deriving Repr, DecidableEq

/-- Source lines 279-283: scan a page for the requested episode name and
return its `airedSeason` and `airedEpisodeNumber`. -/
def findEpisode : List TvdbEpisode → String → Option (Nat × Nat)
  | [], _ => none
  | e :: rest, name =>
    if tvdbEpisodeMatches e.episodeName name then
      some (e.airedSeason, e.airedEpisodeNumber)
    else findEpisode rest name

/-- Source lines 266-292, the `while True:` page loop.  On a failed page
request with `failOnError = false`, `requests_wrapper` returns `None` and
line 273 evaluates `rv.ok` on it, which raises `AttributeError` — modelled
as `.raised`.  `links.next` is followed only when truthy (line 285). -/
def episodePagesLoop (w : TvdbWorld) (seriesName episodeName : String)
    (failOnError : Bool) : Nat → Nat → TvdbOutcome
  | 0, _ => TvdbOutcome.diverged
  | fuel + 1, page =>
    match w.episodesPage page with
    | none =>
      if failOnError then
        TvdbOutcome.failJson ("The request failed getting the episodes in the series \"" ++
          seriesName ++ "\" from The TVDB")
      else
        TvdbOutcome.raised
    | some pg =>
      match findEpisode pg.episodes episodeName with
      | some se => TvdbOutcome.ok (some se.1) (some se.2)
      | none =>
        match pg.next with
        | some n =>
          if n ≠ 0 then episodePagesLoop w seriesName episodeName failOnError fuel n
          else if failOnError then
            TvdbOutcome.failJson ("The episode \"" ++ episodeName ++
              "\" could not be found on The TVDB")
          else TvdbOutcome.ok none none
        | none =>
          if failOnError then
            TvdbOutcome.failJson ("The episode \"" ++ episodeName ++
              "\" could not be found on The TVDB")
          else TvdbOutcome.ok none none

/-- Source lines 212-292, `get_season_episode_num`.  The login call site
(line 241) checks `if not rv:` and correctly returns `(None, None)` when
tolerant; the series-search call site (line 254) instead checks
`if not rv.ok:` — when the wrapper returned `None` this dereference raises
`AttributeError` (`.raised`).  An empty `data` array makes
`rv_json['data'][0]` raise `IndexError` (`.raised`).  A successful JSON
body is a non-empty object, so the `if not rv_json:` guards never fire and
are not reproduced. -/
def getSeasonEpisodeNum (w : TvdbWorld) (seriesName episodeName : String)
    (failOnError : Bool) (fuel : Nat) : TvdbOutcome :=
  match w.login with
  | none =>
    if failOnError then
      TvdbOutcome.failJson "The request failed attempting to login to The TVDB"
    else
      TvdbOutcome.ok none none
  | some _tok =>
    match w.seriesSearch with
    | none =>
      if failOnError then
        TvdbOutcome.failJson ("The request failed while getting the series \"" ++
          seriesName ++ "\" in The TVDB")
      else
        TvdbOutcome.raised
    | some [] => TvdbOutcome.raised
    | some (_seriesId :: _) =>
      episodePagesLoop w seriesName episodeName failOnError fuel 1

/- ------------------------------------------------------------------ -/
/- TiVo device listing: `get_tivo_recording_info`.                     -/
/- ------------------------------------------------------------------ -/

/-- The `Details` child of an `Item` element: title, optional
`EpisodeTitle` child, and the nested download `Url` (`none` models the
malformed case where `get_tivo_dl_link_from_element` raises). -/
structure TivoDetails where
  title : String
  episodeTitle : Option String
  url : Option String
  deriving Repr, DecidableEq

/-- One `Item` element; items without `Details` are containers. -/
structure TivoItem where
  details : Option TivoDetails
  deriving Repr, DecidableEq

/-- One device response page: the `ItemCount` field and the `Item`
elements. -/
structure TivoPage where
  itemCount : Nat
  items : List TivoItem
  deriving Repr, DecidableEq

/-- The recording dict built by `get_tivo_recording_info` and later
augmented by `main`: keys `title`, optional `episode`, `link`, and the
optionally attached `season_num` / `episode_num`. -/
structure RecordingMatch where
  title : String
  episode : Option String := none
  link : String
  season_num : Option Nat := none
  episode_num : Option Nat := none
  deriving Repr, DecidableEq

/-- Source lines 295-306: the download link with the fixed format
query-string suffix appended. -/
def mkMatch (t : String) (e : Option String) (u : String) : RecordingMatch :=
  { title := t, episode := e, link := u ++ "&Format=video/x-tivo-mpeg" }

/-- Source lines 339-378, the `for child in xml_root.iter('Item')` body.
Returns the accumulated recordings and whether the function returned early
(`return recordings` inside the loop); `.error` models the fatal
malformed-link path. -/
def processItems (t : String) (ep : Option String) :
    List RecordingMatch → List TivoItem → Except Unit (List RecordingMatch × Bool)
  | recs, [] => Except.ok (recs, false)
  | recs, it :: rest =>
    match it.details with
    | none => processItems t ep recs rest
    | some d =>
      if d.title ≠ t then processItems t ep recs rest
      else
        match d.episodeTitle with
        | some txt =>
          if strOptFalsy ep = true ∨ ep = some txt then
            match d.url with
            | none => Except.error ()
            | some u =>
              if strOptFalsy ep = false then
                Except.ok (recs ++ [mkMatch t (some txt) u], true)
              else
                processItems t ep (recs ++ [mkMatch t (some txt) u]) rest
          else processItems t ep recs rest
        | none =>
          if ep = none then
            match d.url with
            | none => Except.error ()
            | some u => Except.ok (recs ++ [mkMatch t none u], true)
          else processItems t ep recs rest

/-- Does an item cause `processItems` to record it (details present, title
equal, and the episode condition of lines 358 / 369 holds)? -/
def matchesItem (t : String) (ep : Option String) (it : TivoItem) : Bool :=
  match it.details with
  | none => false
  | some d =>
    if d.title ≠ t then false
    else
      match d.episodeTitle with
      | some txt => decide (strOptFalsy ep = true ∨ ep = some txt)
      | none => decide (ep = none)

/-- Observable outcome of the device-listing loop: the recordings, the
sequence of `AnchorOffset` values requested, and whether the loop ended by
an early `return` (`early = true`) or by a zero `ItemCount`; `.badFormat`
is the fatal malformed-link termination and `.fuelOut` stands for a
listing that never reports zero items. -/
inductive TivoResult where
  | ok (recs : List RecordingMatch) (offsets : List Nat) (early : Bool)
  | badFormat
  | fuelOut
  deriving Repr, DecidableEq

/-- Source lines 322-380, the `while True:` pagination loop of
`get_tivo_recording_info`: fetch the page at `offset`, stop on zero
`ItemCount`, otherwise scan the items and advance the offset by the page
item count. -/
def tivoLoop (listing : Nat → TivoPage) (t : String) (ep : Option String) :
    Nat → Nat → List RecordingMatch → TivoResult
  | 0, _, _ => TivoResult.fuelOut
  | fuel + 1, offset, recs =>
    if (listing offset).itemCount = 0 then TivoResult.ok recs [offset] false
    else
      match processItems t ep recs (listing offset).items with
      | Except.error _ => TivoResult.badFormat
      | Except.ok (recs', true) => TivoResult.ok recs' [offset] true
      | Except.ok (recs', false) =>
        match tivoLoop listing t ep fuel (offset + (listing offset).itemCount) recs' with
        | TivoResult.ok r offs e => TivoResult.ok r (offset :: offs) e
        | other => other

/-- Source `get_tivo_recording_info`: run the pagination loop from offset
zero with no recordings accumulated. -/
def getTivoRecordingInfo (listing : Nat → TivoPage) (t : String)
    (ep : Option String) (fuel : Nat) : TivoResult :=
  tivoLoop listing t ep fuel 0 []

/-- A well-behaved device serving a fixed page sequence: page `i` is served
at the offset equal to the total item count of the pages before it, and any
other offset (never requested by the loop) yields an empty page. -/
def listingOf : List TivoPage → Nat → TivoPage
  | [], _ => { itemCount := 0, items := [] }
  | p :: ps, off =>
    if off = 0 then p
    else if off < p.itemCount then { itemCount := 0, items := [] }
    else listingOf ps (off - p.itemCount)

/-- The offsets at which a run starting at `base` serves the given pages. -/
def offsetsOfPages (base : Nat) : List TivoPage → List Nat
  | [] => []
  | p :: ps => base :: offsetsOfPages (base + p.itemCount) ps

/-- Total item count of a page sequence. -/
def sumCounts (ps : List TivoPage) : Nat := (ps.map TivoPage.itemCount).sum

/-- Apply a function to the offset trace of a loop outcome. -/
def mapOffsets (f : Nat → Nat) : TivoResult → TivoResult
  | TivoResult.ok r offs e => TivoResult.ok r (offs.map f) e
  | x => x

/-- Prepend an offset to the offset trace of a loop outcome. -/
def consOffset (o : Nat) : TivoResult → TivoResult
  | TivoResult.ok r offs e => TivoResult.ok r (o :: offs) e
  | x => x

/-- Offset-trace bookkeeping for a run that first walks the pages `pre`
and then behaves like a run of the remaining listing from offset zero. -/
def withPre (pre : List TivoPage) : TivoResult → TivoResult
  | TivoResult.ok r offs e =>
    TivoResult.ok r (offsetsOfPages 0 pre ++ offs.map (fun o => sumCounts pre + o)) e
  | x => x

/- ------------------------------------------------------------------ -/
/- Download decision and transfer: `download_tivo_recording`.          -/
/- ------------------------------------------------------------------ -/

/-- Python `str.format` of the optional episode value: `None` renders as
the string "None". -/
def fmtEpisode : Option String → String
  | some e => e
  | none => "None"

/-- Source lines 393-403: the destination file name. The first branch is
taken when `season_num and episode_num` are both truthy (present and
non-zero), the second when `episode` is truthy. -/
def fileName (r : RecordingMatch) : String :=
  if natOptTruthy r.season_num && natOptTruthy r.episode_num then
    r.title ++ " - S" ++ pad2 (r.season_num.getD 0) ++ "E" ++
      pad2 (r.episode_num.getD 0) ++ " - " ++ fmtEpisode r.episode ++ ".TiVo"
  else if strOptFalsy r.episode = false then
    r.title ++ " - " ++ fmtEpisode r.episode ++ ".TiVo"
  else
    r.title ++ ".TiVo"

/-- One entry of `listdir(skip_path)` together with its
`path.isfile` status. -/
structure DirEntry where
  name : String
  isFile : Bool
  deriving Repr, DecidableEq

/-- The filesystem state the download decision reads: the skip-check
directory listing (`none` when `skip_path` is unset or not a directory)
and the names present in the destination directory. -/
structure FS where
  skipDir : Option (List DirEntry) := none
  destFiles : List String := []
  deriving Repr, DecidableEq

/-- Source lines 405-413: is there a file in the skip directory whose name
without extension equals the computed file name without extension? -/
def skipHit : Option (List DirEntry) → String → Bool
  | none, _ => false
  | some entries, fname =>
    entries.any (fun it => it.isFile && (splitextStem it.name == splitextStem fname))

/-- Source lines 383-431, `download_tivo_recording`: skip when the
skip-check directory holds a same-stem file, else skip when the
destination file exists, else transfer (writing the destination file;
a transport failure on the transfer itself fatally ends the run and is
outside the returned state).  Returns the download flag and the updated
filesystem. -/
def downloadTivoRecording (fs : FS) (r : RecordingMatch) : Bool × FS :=
  if skipHit fs.skipDir (fileName r) = true then (false, fs)
  else if fileName r ∈ fs.destFiles then (false, fs)
  else (true, { fs with destFiles := fs.destFiles ++ [fileName r] })

/- ------------------------------------------------------------------ -/
/- Orchestration: `main`.                                              -/
/- ------------------------------------------------------------------ -/

/-- Source lines 473-483: per-recording enrichment.  `resolve` abstracts
the `get_season_episode_num` call; `hasKeys` is the truthiness of the
three TVDB credentials.  Numbers are attached only when both returned
values are truthy (present and non-zero). -/
def enrich (resolve : String → String → Option Nat × Option Nat) (hasKeys : Bool)
    (r : RecordingMatch) : RecordingMatch :=
  match r.episode with
  | none => r
  | some en =>
    if en ≠ "" ∧ hasKeys = true then
      if natOptTruthy (resolve r.title en).1 && natOptTruthy (resolve r.title en).2 then
        { r with season_num := (resolve r.title en).1,
                 episode_num := (resolve r.title en).2 }
      else r
    else r

/-- Observable actions of the transfer loop of `main`. -/
inductive Event where
  | downloaded (r : RecordingMatch)
  | skipped (r : RecordingMatch)
  | sleep30
  deriving Repr, DecidableEq

/-- Source lines 473-490, the `for recording_info in recordings_info:`
loop: enrich, decide, count downloads, and `sleep(30)` after a download
whenever `download_count < len(recordings_info)` (`total`).  Returns the
event trace, the final download count and the final filesystem. -/
def mainLoop (resolve : String → String → Option Nat × Option Nat) (hasKeys : Bool)
    (total : Nat) : FS → Nat → List RecordingMatch → List Event × Nat × FS
  | fs, count, [] => ([], count, fs)
  | fs, count, r :: rest =>
    let r' := enrich resolve hasKeys r
    let res := downloadTivoRecording fs r'
    if res.1 = true then
      let tail := mainLoop resolve hasKeys total res.2 (count + 1) rest
      (Event.downloaded r' ::
        ((if count + 1 < total then [Event.sleep30] else []) ++ tail.1),
       tail.2.1, tail.2.2)
    else
      let tail := mainLoop resolve hasKeys total res.2 count rest
      (Event.skipped r' :: tail.1, tail.2.1, tail.2.2)

/-- The transfer loop as `main` enters it: zero downloads so far and
`total = len(recordings_info)`. -/
def mainRun (resolve : String → String → Option Nat × Option Nat) (hasKeys : Bool)
    (fs : FS) (recs : List RecordingMatch) : List Event × Nat × FS :=
  mainLoop resolve hasKeys recs.length fs 0 recs

/-- Source lines 492-501: the reported `changed` flag. -/
def changedFlag (downloadCount : Nat) : Bool :=
  if downloadCount > 0 then true else false

/-- Is an event a download? -/
def isDl : Event → Bool
  | Event.downloaded _ => true
  | _ => false

/-- Pacing discipline of an event trace, tracking the download count: a
pause appears exactly after a download that leaves the count below
`total`, and nowhere else. -/
def paced (total : Nat) : Nat → List Event → Bool
  | _, [] => true
  | count, Event.skipped _ :: rest => paced total count rest
  | _, Event.sleep30 :: _ => false
  | count, Event.downloaded _ :: Event.sleep30 :: rest =>
    decide (count + 1 < total) && paced total (count + 1) rest
  | count, Event.downloaded _ :: rest =>
    decide (¬ (count + 1 < total)) && paced total (count + 1) rest

/-- Number of download events in a trace. -/
def countDl (evs : List Event) : Nat := evs.countP (fun e => isDl e)

/-- Concrete device listing used to exercise the pagination loop: one page
of two container items at offset zero, then an empty page. -/
def demoListing : Nat → TivoPage := fun o =>
  if o = 0 then { itemCount := 2, items := [] } else { itemCount := 0, items := [] }

/-- Concrete episodic device item. -/
def demoItem : TivoItem :=
  { details := some { title := "T", episodeTitle := some "E", url := some "u" } }

/-- Concrete non-episodic device item. -/
def demoMovieItem : TivoItem :=
  { details := some { title := "M", episodeTitle := none, url := some "v" } }

/- ==================================================================== -/
/- Theorems                                                              -/
/- ==================================================================== -/

/-- C1: the claim says that with `failOnError = false` every failure of the
metadata resolution returns `(absent, absent)` without raising.  The code
violates this: when the series-search request fails, `requests_wrapper`
returns `None` (tolerant mode) and line 254 evaluates `rv.ok` on it, which
raises `AttributeError` and terminates the run.  This evaluation exhibits
the failing input: login succeeds, the series search fails, and the
outcome is a raised exception rather than `.ok none none`. -/
theorem c1_series_lookup_failure_raises :
    getSeasonEpisodeNum
      { login := some "token", seriesSearch := none, episodesPage := fun _ => none }
      "The Simpsons" "Bart the General" false 5 = TvdbOutcome.raised := rfl

/-- C3: the destination file name follows the three-branch rule of
`download_tivo_recording` lines 393-403: with both numbers known (present
and non-zero) the `S..E..` form, with an episode title only the
`title - episode` form, otherwise the bare title; and the concrete
Simpsons instance renders exactly as claimed. -/
theorem c3_filename_rule :
    (∀ (r : RecordingMatch) (s e : Nat) (ep : String),
      r.season_num = some s → r.episode_num = some e → s ≠ 0 → e ≠ 0 →
      r.episode = some ep →
      fileName r = r.title ++ " - S" ++ pad2 s ++ "E" ++ pad2 e ++ " - " ++ ep ++ ".TiVo")
    ∧ (∀ (r : RecordingMatch) (ep : String),
      (natOptTruthy r.season_num && natOptTruthy r.episode_num) = false →
      r.episode = some ep → ep ≠ "" →
      fileName r = r.title ++ " - " ++ ep ++ ".TiVo")
    ∧ (∀ r : RecordingMatch,
      (natOptTruthy r.season_num && natOptTruthy r.episode_num) = false →
      strOptFalsy r.episode = true →
      fileName r = r.title ++ ".TiVo")
    ∧ fileName { title := "The Simpsons", episode := some "Bart the General", link := "u", season_num := some 1, episode_num := some 1 }
        = "The Simpsons - S01E01 - Bart the General.TiVo" := by
  refine ⟨?_, ?_, ?_, by decide⟩
  · intro r s e ep hs he hs0 he0 hep
    simp [fileName, hs, he, hep, natOptTruthy, fmtEpisode, hs0, he0]
  · intro r ep hb hep hne
    simp [fileName, hb, hep, strOptFalsy, fmtEpisode, hne]
  · intro r hb hf
    simp [fileName, hb, hf]

/-- Witness for C3: each branch of the file-name rule evaluated at a
concrete recording. -/
theorem c3_filename_rule_witness :
    fileName { title := "T", episode := some "E", link := "u", season_num := some 3, episode_num := some 12 }
      = "T" ++ " - S" ++ pad2 3 ++ "E" ++ pad2 12 ++ " - " ++ "E" ++ ".TiVo"
    ∧ fileName { title := "T", episode := some "E", link := "u" }
      = "T" ++ " - " ++ "E" ++ ".TiVo"
    ∧ fileName { title := "T", link := "u" } = "T" ++ ".TiVo" :=
  ⟨c3_filename_rule.1 _ 3 12 "E" rfl rfl (by decide) (by decide) rfl,
   c3_filename_rule.2.1 _ "E" (by decide) rfl (by decide),
   c3_filename_rule.2.2.1 _ (by decide) (by decide)⟩

/-- C4: the skip decision of `download_tivo_recording` is evaluated in
order: a same-stem file in the configured skip directory skips (regardless
of the destination directory), else an existing destination file skips,
else the transfer proceeds and writes the destination file. -/
theorem c4_skip_decision :
    (∀ (fs : FS) (r : RecordingMatch),
      skipHit fs.skipDir (fileName r) = true →
      downloadTivoRecording fs r = (false, fs))
    ∧ (∀ (fs : FS) (r : RecordingMatch),
      skipHit fs.skipDir (fileName r) = false →
      fileName r ∈ fs.destFiles →
      downloadTivoRecording fs r = (false, fs))
    ∧ (∀ (fs : FS) (r : RecordingMatch),
      skipHit fs.skipDir (fileName r) = false →
      fileName r ∉ fs.destFiles →
      downloadTivoRecording fs r =
        (true, { fs with destFiles := fs.destFiles ++ [fileName r] })) := by
  refine ⟨?_, ?_, ?_⟩
  · intro fs r h
    simp [downloadTivoRecording, h]
  · intro fs r h hmem
    simp [downloadTivoRecording, h, hmem]
  · intro fs r h hmem
    simp [downloadTivoRecording, h, hmem]

/-- Witness for C4: the three skip-decision branches on concrete states —
a same-stem `.mpg` file in the skip directory wins over an empty
destination, an existing destination file skips, and otherwise the
transfer happens. -/
theorem c4_skip_decision_witness :
    downloadTivoRecording
      { skipDir := some [{ name := "T.mpg", isFile := true }], destFiles := [] }
      { title := "T", link := "u" }
      = (false, { skipDir := some [{ name := "T.mpg", isFile := true }], destFiles := [] })
    ∧ downloadTivoRecording { skipDir := none, destFiles := ["T.TiVo"] }
      { title := "T", link := "u" }
      = (false, { skipDir := none, destFiles := ["T.TiVo"] })
    ∧ downloadTivoRecording { skipDir := none, destFiles := [] }
      { title := "T", link := "u" }
      = (true, { skipDir := none, destFiles := [] ++ [fileName { title := "T", link := "u" }] }) :=
  ⟨c4_skip_decision.1 _ _ (by decide),
   c4_skip_decision.2.1 _ _ (by decide) (by decide),
   c4_skip_decision.2.2 _ _ (by decide) (by decide)⟩

/-- C5: the claim that any two episode titles differing only in letter
case are matched by the catalog comparison is false: the comparison strips
surrounding whitespace from the catalog side only, so `"Foo "` and
`"FOO "` — equal after lowercasing, hence differing only in letter case —
do not match (`strip` removes the trailing blank from one side only). -/
theorem c5_case_counterexample :
    lowerStr "Foo " = lowerStr "FOO " ∧ tvdbEpisodeMatches "Foo " "FOO " = false := by
  exact ⟨by decide, by decide⟩

/-- C5 (amended): catalog episode-title comparison lowercases both sides
after stripping surrounding whitespace from the catalog side, so titles
whose catalog form carries no surrounding whitespace are matched
case-insensitively; device-side title and episode-title comparisons in
`get_tivo_recording_info` are exact, so a case difference prevents a
match. -/
theorem c5_amended_matching :
    (∀ s t : String, stripStr s = s → lowerStr s = lowerStr t →
      tvdbEpisodeMatches s t = true)
    ∧ tvdbEpisodeMatches "BART THE GENERAL" "Bart the General" = true
    ∧ processItems "The Simpsons" none []
        [{ details := some { title := "the simpsons", episodeTitle := none, url := some "u" } }]
        = Except.ok ([], false)
    ∧ processItems "T" (some "Bart the general") []
        [{ details := some { title := "T", episodeTitle := some "Bart The General", url := some "u" } }]
        = Except.ok ([], false) := by
  refine ⟨?_, by decide, by rfl, by rfl⟩
  intro s t hs hl
  simp [tvdbEpisodeMatches, hs, hl]

/-- Witness for C5 (amended): a whitespace-free pair differing only in
case is matched. -/
theorem c5_amended_matching_witness :
    tvdbEpisodeMatches "Bart" "BART" = true :=
  c5_amended_matching.1 "Bart" "BART" (by decide) (by decide)

/-- C10: a resolution in which the season number or the episode number is
zero is treated as unresolved by `main` (line 481, Python truthiness):
nothing is attached to the recording, and the file name keeps the
`title - episode` fallback form instead of containing `S00` or `E00`. -/
theorem c10_zero_unresolved :
    ∀ (resolve : String → String → Option Nat × Option Nat)
      (r : RecordingMatch) (en : String),
      r.episode = some en → en ≠ "" →
      r.season_num = none → r.episode_num = none →
      ((resolve r.title en).1 = some 0 ∨ (resolve r.title en).2 = some 0) →
      enrich resolve true r = r ∧ fileName r = r.title ++ " - " ++ en ++ ".TiVo" := by
  intro resolve r en hep hne hs he hz
  constructor
  · rcases hz with h0 | h0 <;> simp [enrich, hep, hne, h0, natOptTruthy]
  · simp [fileName, hs, he, natOptTruthy, hep, strOptFalsy, fmtEpisode, hne]

/-- Witness for C10: a catalog answer of season 0 leaves the recording
unchanged and the file name in fallback form. -/
theorem c10_zero_unresolved_witness :
    enrich (fun _ _ => (some 0, some 5)) true { title := "T", episode := some "E", link := "u" }
      = { title := "T", episode := some "E", link := "u" }
    ∧ fileName { title := "T", episode := some "E", link := "u" }
      = "T" ++ " - " ++ "E" ++ ".TiVo" :=
  c10_zero_unresolved (fun _ _ => (some 0, some 5)) _ "E" rfl (by decide) rfl rfl
    (Or.inl rfl)

/-- The download count returned by the transfer loop equals the starting
count plus the number of download events in its trace. -/
theorem mainLoop_count (resolve : String → String → Option Nat × Option Nat)
    (keys : Bool) (total : Nat) :
    ∀ (recs : List RecordingMatch) (fs : FS) (count : Nat),
      (mainLoop resolve keys total fs count recs).2.1
        = count + countDl (mainLoop resolve keys total fs count recs).1 := by
  intro recs
  induction recs with
  | nil =>
    intro fs count
    simp [mainLoop, countDl]
  | cons r rest ih =>
    intro fs count
    by_cases hd : (downloadTivoRecording fs (enrich resolve keys r)).1 = true
    · by_cases hlt : count + 1 < total <;>
        · simp only [mainLoop, hd, if_true, hlt, countDl, List.countP_cons, List.countP_append,
            if_false, List.nil_append, List.cons_append, isDl]
          simp [countDl, isDl, hlt] at ih ⊢
          rw [ih]
          omega
    · simp only [mainLoop, hd, if_false, countDl, List.countP_cons]
      simp [countDl, isDl] at ih ⊢
      rw [ih]

/-- C8: the reported `changed` flag of a run that reaches summarizing is
true exactly when the trace of the transfer loop contains at least one
download event; in particular a run in which every matched recording was
skipped reports `changed = false`. -/
theorem c8_changed_iff_download :
    ∀ (resolve : String → String → Option Nat × Option Nat) (keys : Bool)
      (fs : FS) (recs : List RecordingMatch),
      changedFlag (mainRun resolve keys fs recs).2.1 = true
        ↔ ∃ r, Event.downloaded r ∈ (mainRun resolve keys fs recs).1 := by
  intro resolve keys fs recs
  rw [mainRun, mainLoop_count]
  have hcp : ∀ evs : List Event,
      (0 < countDl evs) ↔ ∃ r, Event.downloaded r ∈ evs := by
    intro evs
    rw [countDl, List.countP_pos_iff]
    constructor
    · rintro ⟨e, he, hdl⟩
      cases e with
      | downloaded r => exact ⟨r, he⟩
      | skipped r => simp [isDl] at hdl
      | sleep30 => simp [isDl] at hdl
    · rintro ⟨r, hr⟩
      exact ⟨Event.downloaded r, hr, rfl⟩
  rw [← hcp]
  simp [changedFlag]

/-- The recordings accumulated by the item scan keep season and episode
numbers absent: the scan only ever appends `mkMatch` records. -/
theorem processItems_noNums (t : String) (ep : Option String) :
    ∀ (l : List TivoItem) (recs recs' : List RecordingMatch) (b : Bool),
      processItems t ep recs l = Except.ok (recs', b) →
      (∀ x ∈ recs, x.season_num = none ∧ x.episode_num = none) →
      ∀ x ∈ recs', x.season_num = none ∧ x.episode_num = none := by
  intro l
  induction l with
  | nil =>
    intro recs recs' b h hall
    simp [processItems] at h
    exact h.1 ▸ hall
  | cons it rest ih =>
    intro recs recs' b h hall
    have hext : ∀ (e : Option String) (u : String), ∀ x ∈ recs ++ [mkMatch t e u],
        x.season_num = none ∧ x.episode_num = none := by
      intro e u x hx
      rcases List.mem_append.mp hx with hx | hx
      · exact hall x hx
      · simp at hx
        subst hx
        exact ⟨rfl, rfl⟩
    cases hdet : it.details with
    | none =>
      rw [processItems, hdet] at h
      exact ih recs recs' b h hall
    | some d =>
      by_cases ht : d.title = t
      · cases he : d.episodeTitle with
        | some txt =>
          by_cases hf : strOptFalsy ep = true
          · -- no episode requested (falsy): record and continue scanning
            cases hu : d.url with
            | none => simp [processItems, hdet, ht, he, hf, hu] at h
            | some u =>
              simp [processItems, hdet, ht, he, hf, hu] at h
              exact ih _ recs' b h (hext (some txt) u)
          · have hf2 : strOptFalsy ep = false := by
              revert hf; cases strOptFalsy ep <;> simp
            by_cases hq : ep = some txt
            · -- the requested episode: record and return early
              rw [hq] at hf2
              cases hu : d.url with
              | none => simp [processItems, hdet, ht, he, hq, hu] at h
              | some u =>
                simp [processItems, hdet, ht, he, hf2, hq, hu] at h
                exact h.1 ▸ hext (some txt) u
            · simp [processItems, hdet, ht, he, hf2, hq] at h
              exact ih recs recs' b h hall
        | none =>
          by_cases hn : ep = none
          · cases hu : d.url with
            | none => simp [processItems, hdet, ht, he, hn, hu] at h
            | some u =>
              simp [processItems, hdet, ht, he, hn, hu] at h
              exact h.1 ▸ hext none u
          · simp [processItems, hdet, ht, he, hn] at h
            exact ih recs recs' b h hall
      · simp [processItems, hdet, ht] at h
        exact ih recs recs' b h hall

/-- The pagination loop preserves the absence of season and episode
numbers in every accumulated recording. -/
theorem tivoLoop_noNums (listing : Nat → TivoPage) (t : String) (ep : Option String) :
    ∀ (fuel off : Nat) (recs recsOut : List RecordingMatch) (offs : List Nat) (e : Bool),
      tivoLoop listing t ep fuel off recs = TivoResult.ok recsOut offs e →
      (∀ x ∈ recs, x.season_num = none ∧ x.episode_num = none) →
      ∀ x ∈ recsOut, x.season_num = none ∧ x.episode_num = none := by
  intro fuel
  induction fuel with
  | zero =>
    intro off recs recsOut offs e h
    simp [tivoLoop] at h
  | succ fuel ih =>
    intro off recs recsOut offs e h hall
    by_cases h0 : (listing off).itemCount = 0
    · simp [tivoLoop, h0] at h
      exact h.1 ▸ hall
    · cases hp : processItems t ep recs (listing off).items with
      | error u => simp [tivoLoop, h0, hp] at h
      | ok pr =>
        obtain ⟨recs', b⟩ := pr
        cases b with
        | true =>
          simp [tivoLoop, h0, hp] at h
          exact h.1 ▸ processItems_noNums t ep _ recs recs' true hp hall
        | false =>
          cases hr : tivoLoop listing t ep fuel (off + (listing off).itemCount) recs' with
          | ok r' offs' e' =>
            simp [tivoLoop, h0, hp, hr] at h
            exact h.1 ▸
              ih _ recs' r' offs' e' hr (processItems_noNums t ep _ recs recs' false hp hall)
          | badFormat => simp [tivoLoop, h0, hp, hr] at h
          | fuelOut => simp [tivoLoop, h0, hp, hr] at h

/-- C9: every recording produced by discovery has both numbers absent, and
enrichment either leaves both absent or attaches both — so at every point
of its lifetime a recording has season and episode number both present or
both absent (the transfer decision reads but never writes them). -/
theorem c9_both_or_neither :
    (∀ (listing : Nat → TivoPage) (t : String) (ep : Option String) (fuel : Nat)
       (recsOut : List RecordingMatch) (offs : List Nat) (e : Bool),
      getTivoRecordingInfo listing t ep fuel = TivoResult.ok recsOut offs e →
      ∀ x ∈ recsOut, x.season_num = none ∧ x.episode_num = none)
    ∧ (∀ (resolve : String → String → Option Nat × Option Nat) (keys : Bool)
        (x : RecordingMatch),
      x.season_num = none → x.episode_num = none →
      ((enrich resolve keys x).season_num = none ∧ (enrich resolve keys x).episode_num = none)
      ∨ (∃ s e, (enrich resolve keys x).season_num = some s
          ∧ (enrich resolve keys x).episode_num = some e)) := by
  constructor
  · intro listing t ep fuel recsOut offs e h
    exact tivoLoop_noNums listing t ep fuel 0 [] recsOut offs e h (by simp)
  · intro resolve keys x hs he
    cases hep : x.episode with
    | none => simp [enrich, hep, hs, he]
    | some en =>
      by_cases hc : en ≠ "" ∧ keys = true
      · by_cases hb : (natOptTruthy (resolve x.title en).1
            && natOptTruthy (resolve x.title en).2) = true
        · right
          rw [Bool.and_eq_true] at hb
          obtain ⟨s, hs1⟩ : ∃ s, (resolve x.title en).1 = some s := by
            cases h1 : (resolve x.title en).1 with
            | none => rw [h1] at hb; simp [natOptTruthy] at hb
            | some v => exact ⟨v, rfl⟩
          obtain ⟨e, he1⟩ : ∃ e, (resolve x.title en).2 = some e := by
            cases h1 : (resolve x.title en).2 with
            | none => rw [h1] at hb; simp [natOptTruthy] at hb
            | some v => exact ⟨v, rfl⟩
          have hs0 : natOptTruthy (some s) = true := hs1 ▸ hb.1
          have he0 : natOptTruthy (some e) = true := he1 ▸ hb.2
          refine ⟨s, e, ?_, ?_⟩ <;>
            simp [enrich, hep, hc, hs1, he1, hs0, he0]
        · left
          simp only [enrich, hep, if_pos hc, if_neg hb]
          exact ⟨hs, he⟩
      · left
        simp only [enrich, hep, if_neg hc]
        exact ⟨hs, he⟩

/-- Witness for C9: a concrete discovery run yields a numberless
recording, and enrichment of a numberless recording with an unresolved
lookup leaves both numbers absent or attaches both. -/
theorem c9_both_or_neither_witness :
    ((mkMatch "T" (some "E") "u").season_num = none
      ∧ (mkMatch "T" (some "E") "u").episode_num = none)
    ∧ (((enrich (fun _ _ => (none, none)) false { title := "T", episode := some "E", link := "u" }).season_num = none
        ∧ (enrich (fun _ _ => (none, none)) false { title := "T", episode := some "E", link := "u" }).episode_num = none)
      ∨ (∃ s e, (enrich (fun _ _ => (none, none)) false { title := "T", episode := some "E", link := "u" }).season_num = some s
          ∧ (enrich (fun _ _ => (none, none)) false { title := "T", episode := some "E", link := "u" }).episode_num = some e)) :=
  ⟨c9_both_or_neither.1 (listingOf [{ itemCount := 1, items := [demoItem] }]) "T" none 3
      [mkMatch "T" (some "E") "u"] [0, 1] false rfl (mkMatch "T" (some "E") "u") (by simp),
   c9_both_or_neither.2 (fun _ _ => (none, none)) false
      { title := "T", episode := some "E", link := "u" } rfl rfl⟩

/-- C2: counterexample to "no pause follows the final transfer of the
batch".  With two matched recordings where the first is skipped (its
destination file exists) and the second transfers, the download count (1)
is still below the batch size (2) after the final transfer, so the trace
ends with a 30-unit pause following the final (and only) transfer. -/
theorem c2_pause_counterexample :
    mainRun (fun _ _ => (none, none)) false { skipDir := none, destFiles := ["A.TiVo"] }
      [{ title := "A", link := "u1" }, { title := "B", link := "u2" }]
      = ([Event.skipped { title := "A", link := "u1" },
          Event.downloaded { title := "B", link := "u2" },
          Event.sleep30], 1,
         { skipDir := none, destFiles := ["A.TiVo", "B.TiVo"] }) := by
  rfl

/-- Traces of the transfer loop never begin with a pause event. -/
theorem mainLoop_no_sleep_head (resolve : String → String → Option Nat × Option Nat)
    (keys : Bool) (total : Nat) (fs : FS) (count : Nat) (recs : List RecordingMatch) :
    ∀ t, (mainLoop resolve keys total fs count recs).1 ≠ Event.sleep30 :: t := by
  intro t h
  cases recs with
  | nil => simp [mainLoop] at h
  | cons r rest =>
    by_cases hd : (downloadTivoRecording fs (enrich resolve keys r)).1 = true <;>
      simp [mainLoop, hd] at h

/-- The transfer-loop trace obeys the pacing discipline: a pause appears
exactly after a download that leaves the count below `total`. -/
theorem paced_mainLoop (resolve : String → String → Option Nat × Option Nat)
    (keys : Bool) :
    ∀ (recs : List RecordingMatch) (total : Nat) (fs : FS) (count : Nat),
      paced total count (mainLoop resolve keys total fs count recs).1 = true := by
  intro recs
  induction recs with
  | nil =>
    intro total fs count
    simp [mainLoop, paced]
  | cons r rest ih =>
    intro total fs count
    by_cases hd : (downloadTivoRecording fs (enrich resolve keys r)).1 = true
    · by_cases hlt : count + 1 < total
      · simpa [mainLoop, hd, hlt, paced] using
          ih total (downloadTivoRecording fs (enrich resolve keys r)).2 (count + 1)
      · have htail := ih total (downloadTivoRecording fs (enrich resolve keys r)).2 (count + 1)
        have hns := mainLoop_no_sleep_head resolve keys total
          (downloadTivoRecording fs (enrich resolve keys r)).2 (count + 1) rest
        simp only [mainLoop, hd, if_true, hlt, if_false, List.nil_append]
        cases hT : (mainLoop resolve keys total
            (downloadTivoRecording fs (enrich resolve keys r)).2 (count + 1) rest).1 with
        | nil => simp [paced, hlt]
        | cons e T =>
          cases e with
          | sleep30 => exact absurd hT (hns T)
          | downloaded r2 =>
            rw [hT] at htail
            simp [paced, hlt, htail]
          | skipped r2 =>
            rw [hT] at htail
            simpa [paced, hlt] using htail
    · have htail := ih total (downloadTivoRecording fs (enrich resolve keys r)).2 count
      simp only [mainLoop, hd, if_false]
      simpa [paced] using htail

/-- C2 (amended): a 30-unit pause follows a successful transfer if and
only if the number of downloads completed so far is below the total number
of matched recordings, and pauses occur nowhere else; in particular, when
every matched recording is transferred, no pause follows the final
transfer, but when some recordings are skipped a pause can follow the
final transfer (see the counterexample). -/
theorem c2_amended_pacing :
    ∀ (resolve : String → String → Option Nat × Option Nat) (keys : Bool)
      (fs : FS) (recs : List RecordingMatch),
      paced recs.length 0 (mainRun resolve keys fs recs).1 = true := by
  intro resolve keys fs recs
  exact paced_mainLoop resolve keys recs recs.length fs 0

/-- Offset-trace invariants of the pagination loop: the trace starts at
the starting offset, each successive offset is the previous one plus that
page's item count (hence strictly larger), and a run that did not exit
early ends at an offset whose page reports zero items. -/
theorem tivoLoop_offsets (listing : Nat → TivoPage) (t : String) (ep : Option String) :
    ∀ (fuel off : Nat) (recs recsOut : List RecordingMatch) (offs : List Nat) (e : Bool),
      tivoLoop listing t ep fuel off recs = TivoResult.ok recsOut offs e →
      offs.head? = some off
      ∧ List.Chain' (fun a b => b = a + (listing a).itemCount ∧ a < b) offs
      ∧ (e = false → ∃ lastOff, offs.getLast? = some lastOff
          ∧ (listing lastOff).itemCount = 0) := by
  intro fuel
  induction fuel with
  | zero =>
    intro off recs recsOut offs e h
    simp [tivoLoop] at h
  | succ fuel ih =>
    intro off recs recsOut offs e h
    by_cases h0 : (listing off).itemCount = 0
    · simp [tivoLoop, h0] at h
      obtain ⟨h1, h2, h3⟩ := h
      subst h2
      subst h3
      exact ⟨rfl, List.chain'_singleton off, fun _ => ⟨off, rfl, h0⟩⟩
    · cases hp : processItems t ep recs (listing off).items with
      | error u => simp [tivoLoop, h0, hp] at h
      | ok pr =>
        obtain ⟨recs', b⟩ := pr
        cases b with
        | true =>
          simp [tivoLoop, h0, hp] at h
          obtain ⟨h1, h2, h3⟩ := h
          subst h2
          subst h3
          exact ⟨rfl, List.chain'_singleton off, fun hfe => Bool.noConfusion hfe⟩
        | false =>
          cases hr : tivoLoop listing t ep fuel (off + (listing off).itemCount) recs' with
          | ok r' offs' e' =>
            simp [tivoLoop, h0, hp, hr] at h
            obtain ⟨h1, h2, h3⟩ := h
            subst h2
            subst h3
            obtain ⟨hhead, hchain, hlast⟩ := ih _ _ _ _ _ hr
            obtain ⟨tail, rfl⟩ : ∃ tail, offs' = (off + (listing off).itemCount) :: tail := by
              cases offs' with
              | nil => simp at hhead
              | cons a tl =>
                simp at hhead
                exact ⟨tl, by rw [hhead]⟩
            refine ⟨rfl, ?_, ?_⟩
            · exact List.chain'_cons.mpr ⟨⟨rfl, by omega⟩, hchain⟩
            · intro he
              obtain ⟨lastOff, hl1, hl2⟩ := hlast he
              refine ⟨lastOff, ?_, hl2⟩
              rw [List.getLast?_cons_cons]
              exact hl1
          | badFormat => simp [tivoLoop, h0, hp, hr] at h
          | fuelOut => simp [tivoLoop, h0, hp, hr] at h

/-- C6: over any device listing, a terminating pagination run visits a
strictly increasing offset sequence in which each successive offset grows
by the previous page's item count, a run that was not cut short by an
early return ends at a page reporting zero items, and the loop terminates
immediately at any offset whose page reports an item count of zero. -/
theorem c6_pagination :
    (∀ (listing : Nat → TivoPage) (t : String) (ep : Option String)
       (fuel off : Nat) (recs recsOut : List RecordingMatch) (offs : List Nat) (e : Bool),
      tivoLoop listing t ep fuel off recs = TivoResult.ok recsOut offs e →
      offs.head? = some off
      ∧ List.Chain' (fun a b => b = a + (listing a).itemCount ∧ a < b) offs
      ∧ (e = false → ∃ lastOff, offs.getLast? = some lastOff
          ∧ (listing lastOff).itemCount = 0))
    ∧ (∀ (listing : Nat → TivoPage) (t : String) (ep : Option String)
        (fuel off : Nat) (recs : List RecordingMatch),
      (listing off).itemCount = 0 →
      tivoLoop listing t ep (fuel + 1) off recs = TivoResult.ok recs [off] false) := by
  constructor
  · intro listing t ep fuel off recs recsOut offs e h
    exact tivoLoop_offsets listing t ep fuel off recs recsOut offs e h
  · intro listing t ep fuel off recs h0
    simp [tivoLoop, h0]

/-- Witness for C6: the invariants evaluated on a concrete two-page
listing, and immediate termination at its empty page. -/
theorem c6_pagination_witness :
    (([0, 2] : List Nat).head? = some 0
      ∧ List.Chain' (fun a b => b = a + (demoListing a).itemCount ∧ a < b) [0, 2]
      ∧ (false = false → ∃ lastOff, ([0, 2] : List Nat).getLast? = some lastOff
          ∧ (demoListing lastOff).itemCount = 0))
    ∧ tivoLoop demoListing "T" none (0 + 1) 2 [] = TivoResult.ok [] [2] false :=
  ⟨c6_pagination.1 demoListing "T" none 3 0 [] [] [0, 2] false (by rfl),
   c6_pagination.2 demoListing "T" none 0 2 [] (by rfl)⟩

/-- An item that does not satisfy the match condition is stepped over by
the item scan. -/
theorem processItems_skip_one (t : String) (ep : Option String)
    (recs : List RecordingMatch) (it : TivoItem) (rest : List TivoItem)
    (h : matchesItem t ep it = false) :
    processItems t ep recs (it :: rest) = processItems t ep recs rest := by
  cases hdet : it.details with
  | none => simp [processItems, hdet]
  | some d =>
    by_cases ht : d.title = t
    · cases he : d.episodeTitle with
      | some txt =>
        simp only [matchesItem, hdet, he] at h
        rw [if_neg (fun hh => hh ht)] at h
        simp only [decide_eq_false_iff_not] at h
        simp [processItems, hdet, ht, he, h]
      | none =>
        simp only [matchesItem, hdet, he] at h
        rw [if_neg (fun hh => hh ht)] at h
        simp only [decide_eq_false_iff_not] at h
        simp [processItems, hdet, ht, he, h]
    · simp [processItems, hdet, ht]

/-- A page with no matching item leaves the accumulated recordings
unchanged and does not return early. -/
theorem processItems_no_match (t : String) (ep : Option String) :
    ∀ (l : List TivoItem) (recs : List RecordingMatch),
      (∀ it ∈ l, matchesItem t ep it = false) →
      processItems t ep recs l = Except.ok (recs, false) := by
  intro l
  induction l with
  | nil => intro recs _; rfl
  | cons it rest ih =>
    intro recs hall
    rw [processItems_skip_one t ep recs it rest (hall it (by simp))]
    exact ih recs (fun i hi => hall i (by simp [hi]))

/-- With an episode requested, the scan returns early at the first item
whose title and episode title match, recording exactly that item. -/
theorem processItems_hit_ep (t txt u : String) (ep : Option String) (d : TivoDetails)
    (it : TivoItem) (l2 : List TivoItem) :
    ∀ (l1 : List TivoItem) (recs : List RecordingMatch),
      strOptFalsy ep = false → ep = some txt →
      (∀ i ∈ l1, matchesItem t ep i = false) →
      it.details = some d → d.title = t → d.episodeTitle = some txt → d.url = some u →
      processItems t ep recs (l1 ++ it :: l2)
        = Except.ok (recs ++ [mkMatch t (some txt) u], true) := by
  intro l1
  induction l1 with
  | nil =>
    intro recs hf hq _ hdet ht he hu
    rw [hq] at hf
    simp [processItems, hdet, ht, he, hu, hq, hf]
  | cons a l1 ih =>
    intro recs hf hq hall hdet ht he hu
    rw [List.cons_append, processItems_skip_one t ep recs a _ (hall a (by simp))]
    exact ih recs hf hq (fun i hi => hall i (by simp [hi])) hdet ht he hu

/-- With no episode requested, the scan returns early at the first
matching item that has no episode element, recording exactly that item. -/
theorem processItems_hit_noep (t u : String) (d : TivoDetails)
    (it : TivoItem) (l2 : List TivoItem) :
    ∀ (l1 : List TivoItem) (recs : List RecordingMatch),
      (∀ i ∈ l1, matchesItem t none i = false) →
      it.details = some d → d.title = t → d.episodeTitle = none → d.url = some u →
      processItems t none recs (l1 ++ it :: l2)
        = Except.ok (recs ++ [mkMatch t none u], true) := by
  intro l1
  induction l1 with
  | nil =>
    intro recs _ hdet ht he hu
    simp [processItems, hdet, ht, he, hu]
  | cons a l1 ih =>
    intro recs hall hdet ht he hu
    rw [List.cons_append, processItems_skip_one t none recs a _ (hall a (by simp))]
    exact ih recs (fun i hi => hall i (by simp [hi])) hdet ht he hu

/-- The sequential device serves its first page at offset zero. -/
theorem listingOf_zero (p : TivoPage) (ps : List TivoPage) : listingOf (p :: ps) 0 = p := by
  simp [listingOf]

/-- Offsets past a non-empty first page address the remaining pages. -/
theorem listingOf_shift (p : TivoPage) (ps : List TivoPage) (h : p.itemCount ≠ 0) (j : Nat) :
    listingOf (p :: ps) (p.itemCount + j) = listingOf ps j := by
  rw [listingOf]
  rw [if_neg (by omega), if_neg (by omega)]
  congr 1
  omega

/-- Running the loop against a listing translated by `c` shifts every
visited offset by `c` and changes nothing else. -/
theorem tivoLoop_shift (L' L : Nat → TivoPage) (t : String) (ep : Option String)
    (c : Nat) (H : ∀ j, L' (c + j) = L j) :
    ∀ (fuel k : Nat) (recs : List RecordingMatch),
      tivoLoop L' t ep fuel (c + k) recs
        = mapOffsets (fun o => c + o) (tivoLoop L t ep fuel k recs) := by
  intro fuel
  induction fuel with
  | zero =>
    intro k recs
    simp [tivoLoop, mapOffsets]
  | succ fuel ih =>
    intro k recs
    by_cases h0 : (L k).itemCount = 0
    · simp [tivoLoop, H k, h0, mapOffsets]
    · cases hp : processItems t ep recs (L k).items with
      | error u => simp [tivoLoop, H k, h0, hp, mapOffsets]
      | ok pr =>
        obtain ⟨recs', b⟩ := pr
        cases b with
        | true => simp [tivoLoop, H k, h0, hp, mapOffsets]
        | false =>
          have hrec := ih (k + (L k).itemCount) recs'
          rw [← Nat.add_assoc] at hrec
          cases hr : tivoLoop L t ep fuel (k + (L k).itemCount) recs' with
          | ok r' offs' e' =>
            rw [hr] at hrec
            simp [tivoLoop, H k, h0, hp, hr, hrec, mapOffsets]
          | badFormat =>
            rw [hr] at hrec
            simp [tivoLoop, H k, h0, hp, hr, hrec, mapOffsets]
          | fuelOut =>
            rw [hr] at hrec
            simp [tivoLoop, H k, h0, hp, hr, hrec, mapOffsets]

/-- Translating the base offset of a page walk maps over its offsets. -/
theorem offsetsOfPages_add (c : Nat) :
    ∀ (ps : List TivoPage) (b : Nat),
      offsetsOfPages (c + b) ps = (offsetsOfPages b ps).map (fun o => c + o) := by
  intro ps
  induction ps with
  | nil => intro b; simp [offsetsOfPages]
  | cons p ps ih =>
    intro b
    rw [offsetsOfPages, offsetsOfPages, List.map_cons, Nat.add_assoc, ih (b + p.itemCount)]

/-- The page-walk offsets from base `c` are the offsets from base zero
shifted by `c`. -/
theorem offsetsOfPages_eq_map (c : Nat) (ps : List TivoPage) :
    offsetsOfPages c ps = (offsetsOfPages 0 ps).map (fun o => c + o) := by
  have h := offsetsOfPages_add c ps 0
  simpa using h

/-- Prepending no pages changes nothing. -/
theorem withPre_nil (x : TivoResult) : withPre [] x = x := by
  cases x <;> simp [withPre, offsetsOfPages, sumCounts]

/-- Prepending a page to the walked prefix prepends offset zero and shifts
the remaining offsets by that page's item count. -/
theorem withPre_cons (p : TivoPage) (pre : List TivoPage) (x : TivoResult) :
    withPre (p :: pre) x
      = consOffset 0 (mapOffsets (fun o => p.itemCount + o) (withPre pre x)) := by
  cases x with
  | ok r offs e =>
    show TivoResult.ok r
        (offsetsOfPages 0 (p :: pre) ++ offs.map (fun o => sumCounts (p :: pre) + o)) e = _
    rw [offsetsOfPages, Nat.zero_add, offsetsOfPages_eq_map p.itemCount pre]
    simp [withPre, consOffset, mapOffsets, sumCounts, List.map_map, Function.comp,
      Nat.add_assoc]
  | badFormat => rfl
  | fuelOut => rfl

/-- One non-terminal, non-matching loop step records the offset and
continues at the advanced offset. -/
theorem tivoLoop_step_cont (listing : Nat → TivoPage) (t : String) (ep : Option String)
    (fuel off : Nat) (recs recs' : List RecordingMatch)
    (h0 : (listing off).itemCount ≠ 0)
    (hp : processItems t ep recs (listing off).items = Except.ok (recs', false)) :
    tivoLoop listing t ep (fuel + 1) off recs
      = consOffset off (tivoLoop listing t ep fuel (off + (listing off).itemCount) recs') := by
  cases hr : tivoLoop listing t ep fuel (off + (listing off).itemCount) recs' <;>
    simp [tivoLoop, h0, hp, hr, consOffset]

/-- Walking a prefix of non-empty pages without matches only records their
offsets; the loop then behaves as a fresh run over the remaining pages. -/
theorem tivoLoop_walk (t : String) (ep : Option String) :
    ∀ (pre rest : List TivoPage) (fuel : Nat) (recs : List RecordingMatch),
      (∀ p ∈ pre, p.itemCount ≠ 0 ∧ ∀ i ∈ p.items, matchesItem t ep i = false) →
      tivoLoop (listingOf (pre ++ rest)) t ep (pre.length + fuel) 0 recs
        = withPre pre (tivoLoop (listingOf rest) t ep fuel 0 recs) := by
  intro pre
  induction pre with
  | nil =>
    intro rest fuel recs _
    rw [withPre_nil]
    simp
  | cons p pre ih =>
    intro rest fuel recs hall
    obtain ⟨hcnt, hnm⟩ := hall p (by simp)
    simp only [List.cons_append, List.length_cons]
    have hstep : pre.length + 1 + fuel = (pre.length + fuel) + 1 := by omega
    rw [hstep]
    rw [tivoLoop_step_cont (listingOf (p :: (pre ++ rest))) t ep (pre.length + fuel) 0 recs recs
      (by rw [listingOf_zero]; exact hcnt)
      (by rw [listingOf_zero]; exact processItems_no_match t ep p.items recs hnm)]
    rw [listingOf_zero, Nat.zero_add]
    have hsh := tivoLoop_shift (listingOf (p :: (pre ++ rest))) (listingOf (pre ++ rest)) t ep
      p.itemCount (listingOf_shift p (pre ++ rest) hcnt) (pre.length + fuel) 0 recs
    rw [Nat.add_zero] at hsh
    rw [hsh, ih rest fuel recs (fun q hq => hall q (by simp [hq])), withPre_cons]

/-- C7: when an episode is requested and the first matching item across
all pages sits on some page (no earlier item matching), discovery returns
exactly that one recording, marks the run as an early return, and its
offset trace stops at that page — no further page is fetched; likewise,
with no episode requested, a matching item without an episode element
produces an immediate return with exactly that one recording. -/
theorem c7_early_exit :
    (∀ (pre post : List TivoPage) (page : TivoPage) (l1 l2 : List TivoItem)
       (it : TivoItem) (d : TivoDetails) (t txt u : String) (ep : Option String)
       (extra : Nat),
      strOptFalsy ep = false → ep = some txt →
      (∀ p ∈ pre, p.itemCount ≠ 0 ∧ ∀ i ∈ p.items, matchesItem t ep i = false) →
      page.itemCount ≠ 0 → page.items = l1 ++ it :: l2 →
      (∀ i ∈ l1, matchesItem t ep i = false) →
      it.details = some d → d.title = t → d.episodeTitle = some txt → d.url = some u →
      getTivoRecordingInfo (listingOf (pre ++ page :: post)) t ep (pre.length + (extra + 1))
        = TivoResult.ok [mkMatch t (some txt) u] (offsetsOfPages 0 pre ++ [sumCounts pre]) true)
    ∧ (∀ (pre post : List TivoPage) (page : TivoPage) (l1 l2 : List TivoItem)
        (it : TivoItem) (d : TivoDetails) (t u : String) (extra : Nat),
      (∀ p ∈ pre, p.itemCount ≠ 0 ∧ ∀ i ∈ p.items, matchesItem t none i = false) →
      page.itemCount ≠ 0 → page.items = l1 ++ it :: l2 →
      (∀ i ∈ l1, matchesItem t none i = false) →
      it.details = some d → d.title = t → d.episodeTitle = none → d.url = some u →
      getTivoRecordingInfo (listingOf (pre ++ page :: post)) t none (pre.length + (extra + 1))
        = TivoResult.ok [mkMatch t none u] (offsetsOfPages 0 pre ++ [sumCounts pre]) true) := by
  constructor
  · intro pre post page l1 l2 it d t txt u ep extra hf hq hpre hcnt hitems hl1 hdet ht he hu
    rw [getTivoRecordingInfo, tivoLoop_walk t ep pre (page :: post) (extra + 1) [] hpre]
    have h00 : ¬ (listingOf (page :: post) 0).itemCount = 0 := by
      rw [listingOf_zero]; exact hcnt
    have hp : processItems t ep ([] : List RecordingMatch) (listingOf (page :: post) 0).items
        = Except.ok ([] ++ [mkMatch t (some txt) u], true) := by
      rw [listingOf_zero, hitems]
      exact processItems_hit_ep t txt u ep d it l2 l1 [] hf hq hl1 hdet ht he hu
    have hfirst : tivoLoop (listingOf (page :: post)) t ep (extra + 1) 0 []
        = TivoResult.ok [mkMatch t (some txt) u] [0] true := by
      simp [tivoLoop, h00, hp]
    rw [hfirst]
    simp [withPre]
  · intro pre post page l1 l2 it d t u extra hpre hcnt hitems hl1 hdet ht he hu
    rw [getTivoRecordingInfo, tivoLoop_walk t none pre (page :: post) (extra + 1) [] hpre]
    have h00 : ¬ (listingOf (page :: post) 0).itemCount = 0 := by
      rw [listingOf_zero]; exact hcnt
    have hp : processItems t none ([] : List RecordingMatch) (listingOf (page :: post) 0).items
        = Except.ok ([] ++ [mkMatch t none u], true) := by
      rw [listingOf_zero, hitems]
      exact processItems_hit_noep t u d it l2 l1 [] hl1 hdet ht he hu
    have hfirst : tivoLoop (listingOf (page :: post)) t none (extra + 1) 0 []
        = TivoResult.ok [mkMatch t none u] [0] true := by
      simp [tivoLoop, h00, hp]
    rw [hfirst]
    simp [withPre]

/-- Witness for C7: a one-page device with one matching episodic item and
a one-page device with one non-episodic item, both returning exactly one
recording with an early exit after the single page fetch. -/
theorem c7_early_exit_witness :
    getTivoRecordingInfo (listingOf [{ itemCount := 1, items := [demoItem] }]) "T" (some "E")
        (([] : List TivoPage).length + (0 + 1))
      = TivoResult.ok [mkMatch "T" (some "E") "u"]
          (offsetsOfPages 0 [] ++ [sumCounts []]) true
    ∧ getTivoRecordingInfo (listingOf [{ itemCount := 1, items := [demoMovieItem] }]) "M" none
        (([] : List TivoPage).length + (0 + 1))
      = TivoResult.ok [mkMatch "M" none "v"]
          (offsetsOfPages 0 [] ++ [sumCounts []]) true :=
  ⟨c7_early_exit.1 [] [] { itemCount := 1, items := [demoItem] } [] [] demoItem
      { title := "T", episodeTitle := some "E", url := some "u" } "T" "E" "u" (some "E") 0
      (by decide) rfl (by simp) (by decide) rfl (by simp) rfl rfl rfl rfl,
   c7_early_exit.2 [] [] { itemCount := 1, items := [demoMovieItem] } [] [] demoMovieItem
      { title := "M", episodeTitle := none, url := some "v" } "M" "v" 0
      (by simp) (by decide) rfl (by simp) rfl rfl rfl rfl⟩

end TivoModule
